import Mathlib

/-!
Shallow embedding of the GlowGo calendar availability engine
(glowgo-backend/services/tools/calendar_tools.py).

Timestamps are modelled as minutes (an `Int`) on the local clock of the
single reference timezone used by the code (America/New_York); all datetime
arithmetic in the source is plain timedelta arithmetic in that zone, which
corresponds to integer arithmetic on minutes.  `datetime.date()` is the
floor day index, `.hour`/`.minute` are the floor-mod clock fields.

Presentation-only details are abstracted as noted next to each definition:
dates formatted with `%A, %B %d` are kept as day indices, and slot records
keep their numeric start/end (the source formats them with `%I:%M %p`
immediately; the formatter is embedded as `fmtPadded`).
-/

namespace GlowGo

/-- Day index of a timestamp: `datetime.date()` as floor division by 1440. -/
def dayOf (t : Int) : Int := Int.fdiv t 1440

/-- Minute-of-day of a timestamp, in `[0, 1440)`. -/
def modDay (t : Int) : Int := Int.fmod t 1440

/-- Hour field of a timestamp: `datetime.hour`. -/
def hourOf (t : Int) : Int := Int.fdiv (modDay t) 60

/-- Minute field of a timestamp: `datetime.minute`. -/
def minuteOf (t : Int) : Int := Int.fmod t 60

/-- Embeds `datetime.replace(hour=h, minute=m)` (seconds are always 0 here). -/
def replaceHM (t h m : Int) : Int := 1440 * dayOf t + 60 * h + m

/-- Zero-padded two-digit rendering used by `strftime`. -/
def pad2 (n : Int) : String := if n < 10 then "0" ++ toString n else toString n

/-- Embeds `strftime("%I:%M %p")`: 12-hour clock, zero padded, AM/PM. -/
def fmtPadded (t : Int) : String :=
  let h := hourOf t
  let h12 := if Int.emod h 12 = 0 then 12 else Int.emod h 12
  pad2 h12 ++ ":" ++ pad2 (minuteOf t) ++ " " ++ (if h < 12 then "AM" else "PM")

/-- Embeds Python `str.lstrip("0")`: drop all leading zero characters
(implemented over the character list so that it evaluates by reduction). -/
def lstrip0 (s : String) : String := String.mk (s.toList.dropWhile (fun c => c = '0'))

/-- Character-list prefix test (Boolean). -/
def startsWithSeq : List Char → List Char → Bool
  | [], _ => true
  | _ :: _, [] => false
  | a :: as, b :: bs => a == b && startsWithSeq as bs

/-- Character-list containment test: does `pat` occur contiguously in the list? -/
def containsSeq (pat : List Char) : List Char → Bool
  | [] => pat.isEmpty
  | c :: rest => startsWithSeq pat (c :: rest) || containsSeq pat rest

/-- Embeds the Python substring test `pat in s`. -/
def strIn (pat s : String) : Bool := containsSeq pat.toList s.toList

/-- Embeds the `SERVICE_DURATIONS` table (minutes). -/
def SERVICE_DURATIONS : List (String × Int) :=
  [("haircut", 60), ("nails", 45), ("manicure", 30), ("pedicure", 45),
   ("massage", 90), ("facial", 60), ("waxing", 30), ("makeup", 45),
   ("spa", 120), ("default", 60)]

/-- Embeds `SERVICE_DURATIONS.get(service_type.lower(), SERVICE_DURATIONS["default"])`. -/
def serviceDurationFor (service_type : String) : Int :=
  (((SERVICE_DURATIONS.find? (fun p => p.1 = service_type.toLower)).map Prod.snd)).getD 60

/-- Embeds the `IMPORTANT_EVENT_KEYWORDS` list. -/
def IMPORTANT_EVENT_KEYWORDS : List String :=
  ["meeting", "interview", "presentation", "conference", "pitch",
   "client", "networking", "board meeting", "review", "demo",
   "wedding", "baby shower", "bridal shower", "birthday party",
   "engagement", "anniversary", "graduation", "gala", "fundraiser",
   "date", "date night", "dinner party", "reception",
   "competition", "recital", "performance", "photoshoot", "photo",
   "video", "recording", "audition", "show",
   "family dinner", "reunion", "holiday", "thanksgiving", "christmas",
   "easter", "passover", "new year", "party"]

/-- Embeds `any(kw in event_name_lower for kw in IMPORTANT_EVENT_KEYWORDS)`. -/
def isImportant (event_name : String) : Bool :=
  IMPORTANT_EVENT_KEYWORDS.any (fun kw => strIn kw event_name.toLower)

/-- Embeds `_get_importance_reason`. -/
def getImportanceReason (event_name_lower : String) : String :=
  if ["wedding", "bridal", "engagement"].any (fun kw => strIn kw event_name_lower) then
    "Special celebration where you\x27ll want to look your absolute best"
  else if ["interview", "pitch", "client", "board"].any (fun kw => strIn kw event_name_lower) then
    "Professional event where first impressions matter"
  else if ["date", "anniversary"].any (fun kw => strIn kw event_name_lower) then
    "Romantic occasion where looking great is a must"
  else if ["photo", "video", "performance"].any (fun kw => strIn kw event_name_lower) then
    "You\x27ll be photographed or on camera"
  else if ["party", "gala", "dinner"].any (fun kw => strIn kw event_name_lower) then
    "Social event with many people"
  else if ["meeting", "conference", "presentation"].any (fun kw => strIn kw event_name_lower) then
    "Professional gathering where you\x27ll meet important people"
  else
    "Important event where looking polished matters"

/-- Processed calendar event: `name`, localized `start`/`end` timestamps.
`end` is a Lean keyword, so the field is named `endT`. -/
structure CalendarEvent where
  name : String
  start : Int
  endT : Int
deriving DecidableEq, Repr

/-- Slot record produced by `_find_available_slots`.  The source stores
`start_time`/`end_time`/`date` already formatted via `strftime`; the
embedding keeps the numeric values (format with `fmtPadded`) and the day
index. -/
structure Slot where
  start_time : Int
  end_time : Int
  date : Int
  type : String
  note : String
deriving DecidableEq, Repr

/-- Business-hours start (9am), from `_find_available_slots`. -/
def business_start : Int := 9

/-- Business-hours end (7pm), from `_find_available_slots`. -/
def business_end : Int := 19

/-- Window start of `_find_available_slots`: 09:00 of the target day, replaced
by `now + 30min` when the target date is today and `now.hour >= business_start`. -/
def slotWindowStart (td now : Int) : Int :=
  if dayOf now = td ∧ business_start ≤ hourOf now then now + 30
  else 1440 * td + 60 * business_start

/-- Gaps between consecutive events in `_find_available_slots` (the
`for i in range(len(day_events) - 1)` loop). -/
def betweenSlots (td total_time_needed buffer_time : Int) :
    List CalendarEvent → List Slot
  | a :: c :: rest =>
    let current_end := a.endT + buffer_time
    let next_start := c.start - buffer_time
    (if next_start - current_end ≥ total_time_needed then
      [⟨current_end, next_start, td, "between_events",
        s!"Between {a.name} and {c.name}"⟩]
     else [])
      ++ betweenSlots td total_time_needed buffer_time (c :: rest)
  | _ => []

/-- Scan of `_find_available_slots` over the sorted target-day events:
the free-day slot when there are none, otherwise the before/between/after
gap slots. -/
def slotsForDay (td day_start total_time_needed buffer_time : Int) :
    List CalendarEvent → List Slot
  | [] =>
    [⟨day_start, 1440 * td + 60 * business_end, td, "free_day",
      "Your calendar is free this day!"⟩]
  | e0 :: rest =>
    let first_event_start := e0.start - buffer_time
    let beforeS :=
      if first_event_start - day_start ≥ total_time_needed then
        [⟨day_start, first_event_start, td, "before_first_event",
          s!"Before your {e0.name}"⟩]
      else []
    let betweenS := betweenSlots td total_time_needed buffer_time (e0 :: rest)
    let last_event_end := ((e0 :: rest).getLastD e0).endT + buffer_time
    let day_end := 1440 * td + 60 * business_end
    let afterS :=
      if day_end - last_event_end ≥ total_time_needed then
        [⟨last_event_end, day_end, td, "after_last_event",
          s!"After your {((e0 :: rest).getLastD e0).name}"⟩]
      else []
    beforeS ++ betweenS ++ afterS

/-- Embeds `_find_available_slots`.  `target_date` is the optional target day
index; `now` stands for `datetime.now(tz)`. -/
def findAvailableSlots (events : List CalendarEvent) (target_date : Option Int)
    (total_time_needed buffer_time now : Int) : List Slot :=
  match target_date with
  | none => []
  | some td =>
    let day_events := List.insertionSort (fun a c => a.start ≤ c.start)
      (events.filter (fun e => dayOf e.start = td))
    slotsForDay td (slotWindowStart td now) total_time_needed buffer_time day_events

/-- Gap record used by `_find_best_slot_for_day` (`start`/`end`/`minutes`). -/
structure Gap where
  start : Int
  stop : Int
  minutes : Int
deriving DecidableEq, Repr

/-- Gaps between consecutive buffered busy periods in `_find_best_slot_for_day`
(the `for i in range(len(busy_periods) - 1)` loop). -/
def betweenGaps (total_time_needed : Int) : List (Int × Int) → List Gap
  | a :: c :: rest =>
    (if c.1 - a.2 ≥ total_time_needed then [⟨a.2, c.1, c.1 - a.2⟩] else [])
      ++ betweenGaps total_time_needed (c :: rest)
  | _ => []

/-- Available gaps of `_find_best_slot_for_day`: before the first busy period,
between consecutive ones, after the last, each kept when its length is at
least `total_time_needed`. -/
def availableGaps (busy_periods : List (Int × Int))
    (day_start day_end total_time_needed : Int) : List Gap :=
  match busy_periods with
  | [] => []
  | b0 :: rest =>
    (if day_start < b0.1 ∧ b0.1 - day_start ≥ total_time_needed then
      [⟨day_start, b0.1, b0.1 - day_start⟩] else [])
    ++ betweenGaps total_time_needed (b0 :: rest)
    ++ (let lastB := (b0 :: rest).getLastD b0
        if lastB.2 < day_end ∧ day_end - lastB.2 ≥ total_time_needed then
          [⟨lastB.2, day_end, day_end - lastB.2⟩] else [])

/-- Preferred hours `[10, 11, 12, 13, 14]` of `_find_best_slot_for_day`. -/
def preferred_hours : List Int := [10, 11, 12, 13, 14]

/-- Preferred-hour scan of `_find_best_slot_for_day`: first slot and first
preferred hour with `slot_start_hour <= h < slot_end_hour` whose anchored
time lies inside the slot. -/
def preferredPick (slots : List Gap) : Option Int :=
  slots.findSome? (fun s =>
    preferred_hours.findSome? (fun ph =>
      if hourOf s.start ≤ ph ∧ ph < hourOf s.stop then
        let suggested := replaceHM s.start ph 0
        if s.start ≤ suggested ∧ suggested < s.stop then some suggested else none
      else none))

/-- Day-start clamp of `_find_best_slot_for_day`: 09:00 of the target day,
pushed to `now + 1 hour` when the day is today and that is later. -/
def bestSlotDayStart (target_day now : Int) : Int :=
  let day_start := replaceHM target_day 9 0
  if dayOf target_day = dayOf now ∧ day_start < now + 60 then now + 60 else day_start

/-- Qualifying gaps computed by `_find_best_slot_for_day` for a day with
events: buffered busy periods sorted by start, scanned against the
clamped window. -/
def bestSlotGaps (target_day : Int) (events_on_day : List CalendarEvent)
    (total_time_needed buffer_time now : Int) : List Gap :=
  let busy_periods := List.insertionSort (fun a c => a.1 ≤ c.1)
    (events_on_day.map (fun e => (e.start - buffer_time, e.endT + buffer_time)))
  availableGaps busy_periods (bestSlotDayStart target_day now)
    (replaceHM target_day 19 0) total_time_needed

/-- Embeds `_find_best_slot_for_day`. -/
def findBestSlotForDay (target_day : Int) (events_on_day : List CalendarEvent)
    (total_time_needed buffer_time now : Int) : String :=
  if events_on_day.isEmpty then "11:00 AM"
  else
    match bestSlotGaps target_day events_on_day total_time_needed buffer_time now with
    | [] => "No available time"
    | first_slot :: rest =>
      match preferredPick (first_slot :: rest) with
      | some suggested => lstrip0 (fmtPadded suggested)
      | none =>
        let m := minuteOf first_slot.start
        let suggested :=
          if m > 30 then replaceHM first_slot.start (hourOf first_slot.start) 0 + 60
          else replaceHM first_slot.start (hourOf first_slot.start)
            (if m < 30 then 0 else 30)
        lstrip0 (fmtPadded suggested)

/-- Important event record kept by `analyze_calendar_for_smart_suggestions`
(the formatted `date`/`time` strings are presentational; the embedding keeps
the event itself plus the `why_important` reason). -/
structure ImportantEvent where
  event : CalendarEvent
  why_important : String
deriving DecidableEq, Repr

/-- Day-before suggestion record.  `event_date` and `suggested_day` are kept
as day indices (the source formats them with `%A, %B %d`). -/
structure DayBeforeSuggestion where
  event_name : String
  event_date : Int
  suggested_day : Int
  suggested_time : String
  reason : String
deriving DecidableEq, Repr

/-- Future-event filter of the processing loop: events whose end is strictly
before now are skipped. -/
def processEvents (events : List CalendarEvent) (now : Int) : List CalendarEvent :=
  events.filter (fun e => !decide (e.endT < now))

/-- Importance scan of the processing loop, applied to the processed events. -/
def importantEventsOf (processed : List CalendarEvent) : List ImportantEvent :=
  (processed.filter (fun e => isImportant e.name)).map
    (fun e => ⟨e, getImportanceReason e.name.toLower⟩)

/-- Suggestion built for one qualifying important event in the day-before
loop of `analyze_calendar_for_smart_suggestions`. -/
def dayBeforeFor (processed : List CalendarEvent) (service_type : String)
    (total_time_needed buffer_time now : Int) (ie : ImportantEvent) :
    DayBeforeSuggestion :=
  let day_before := ie.event.start - 1440
  let day_before_events := List.insertionSort (fun a c => a.start ≤ c.start)
    (processed.filter (fun e => dayOf e.start = dayOf day_before))
  { event_name := ie.event.name
    event_date := dayOf ie.event.start
    suggested_day := dayOf day_before
    suggested_time := findBestSlotForDay day_before day_before_events
      total_time_needed buffer_time now
    reason := s!"Get your {service_type} done before {ie.event.name} so you look your best!" }

/-- Day-before loop of `analyze_calendar_for_smart_suggestions`: skips
important events starting less than 24 hours from now, emits one suggestion
for each of the others. -/
def dayBeforeSuggestions (processed : List CalendarEvent)
    (important : List ImportantEvent) (service_type : String)
    (total_time_needed buffer_time now : Int) : List DayBeforeSuggestion :=
  important.filterMap (fun ie =>
    if ie.event.start - now < 1440 then none
    else some (dayBeforeFor processed service_type total_time_needed buffer_time now ie))

/-- Event tuple sent to the scoring capability (`{name, date, time}`;
missing keys default like `dict.get`). -/
structure EventInfo where
  name : String
  date : Option String
  time : Option String
deriving DecidableEq, Repr

/-- Scored event returned by the scoring capability. -/
structure ScoredEvent where
  name : String
  importance_score : Int
  reason : String
deriving DecidableEq, Repr

/-- Event list text of the capability prompt, built from at most the first
10 events (`events[:10]`). -/
def eventListText (events : List EventInfo) : String :=
  String.intercalate "\n" ((events.take 10).map (fun e =>
    "- " ++ e.name ++ " on " ++ e.date.getD "unknown date"
      ++ " at " ++ e.time.getD "unknown time"))

/-- Prompt of `detect_important_events_with_llm` (instruction text around the
event list; JSON braces of the source are escaped). -/
def promptFor (events : List EventInfo) : String :=
  "Analyze these upcoming calendar events and identify which ones are \"important appearance events\"\n"
  ++ "where the person would want to look their best (get a haircut, nails done, etc. beforehand).\n\nEvents:\n"
  ++ eventListText events
  ++ "\n\nFor each important event, return a JSON array with objects containing:\n"
  ++ "- \"name\": the event name\n- \"importance_score\": 1-10 (10 = most important to look good)\n"
  ++ "- \"reason\": why this event matters for appearance\n\nConsider events like:\n"
  ++ "- Weddings, parties, galas (9-10)\n- Client meetings, interviews, presentations (8-9)\n"
  ++ "- Dates, romantic dinners (8-9)\n- Photo shoots, videos, performances (9-10)\n"
  ++ "- Family gatherings, reunions (7-8)\n- Regular work meetings (5-6)\n\n"
  ++ "Return ONLY the JSON array, no other text. If no important events, return [].\n"
  ++ "Example: [\x7b\"name\": \"Wedding\", \"importance_score\": 10, \"reason\": \"Special celebration where looking your best matters\"\x7d]"

/-- Markdown-fence stripping of `detect_important_events_with_llm`:
`split("```json")[1].split("```")[0].strip()` when a fence marker occurs. -/
def stripFenced (result_text : String) : String :=
  if strIn "```json" result_text then
    (((result_text.splitOn "```json").getD 1 "").splitOn "```").getD 0 "" |>.trim
  else if strIn "```" result_text then
    (((result_text.splitOn "```").getD 1 "").splitOn "```").getD 0 "" |>.trim
  else result_text

/-- Embeds `detect_important_events_with_llm`.  The capability is an optional
function from the prompt to either a failure or a response text (`llm` /
`llm.ainvoke`); JSON decoding (`json.loads` of the standard library, not part
of this repository) is a parameter `parseJsonList` that yields `none` on any
parse failure.  The `try/except` of the source makes the function total:
every failure path returns `[]`. -/
def detectImportantEventsWithLlm (parseJsonList : String → Option (List ScoredEvent))
    (events : List EventInfo) (llm : Option (String → Except String String)) :
    List ScoredEvent :=
  if events.isEmpty || llm.isNone then []
  else
    match llm with
    | none => []
    | some f =>
      match f (promptFor events) with
      | .error _ => []
      | .ok content =>
        let result_text := content.trim
        match parseJsonList (stripFenced result_text) with
        | none => []
        | some important_events => important_events

/-- Aggregate result of `analyze_calendar_for_smart_suggestions` (the
`reasoning` string is presentational and omitted). -/
structure AnalysisResult where
  has_calendar : Bool
  suggested_slots : List Slot
  important_events : List ImportantEvent
  day_before_suggestions : List DayBeforeSuggestion
  events_on_date : List CalendarEvent
  smart_suggestion : String
deriving DecidableEq, Repr

/-- Embeds `_build_smart_suggestion` (the stray emoji byte sequence of the
source is kept as a plain marker). -/
def buildSmartSuggestion (analysis : AnalysisResult) (service_type : String)
    (service_duration : Int) (target_date : Option Int) : String :=
  if !analysis.has_calendar then ""
  else
    let parts1 : List String :=
      if target_date.isSome then
        match analysis.events_on_date with
        | [] => []
        | [e] => [s!"I see you have {e.name} at {fmtPadded e.start}."]
        | [e1, e2] =>
          [s!"I see from your calendar you have {e1.name} at {fmtPadded e1.start}, and {e2.name} at {fmtPadded e2.start}."]
        | e1 :: _ :: _ :: _ =>
          [s!"I see you have {analysis.events_on_date.length} events that day, starting with {e1.name} at {fmtPadded e1.start}."]
      else []
    let parts2 : List String :=
      match analysis.suggested_slots with
      | [] => []
      | s0 :: _ =>
        if s0.type = "between_events" then
          [s!"How about between your appointments? {fmtPadded s0.start_time} to {fmtPadded s0.end_time} would give you enough time for your {service_type} with buffer time to spare!"]
        else if s0.type = "free_day" then
          [s!"Your calendar is free that day! I\x27d suggest late morning or early afternoon when you have plenty of time to enjoy your {service_type}."]
        else
          [s!"I\x27d suggest around {fmtPadded s0.start_time} - {s0.note.toLower}."]
    let parts3 : List String :=
      match analysis.day_before_suggestions with
      | [] => []
      | d0 :: _ =>
        [s!"\n\n[idea] I noticed you have {d0.event_name} on day {d0.event_date}! How about getting your {service_type} done the day before on day {d0.suggested_day} around {d0.suggested_time}? That way you\x27ll look fresh and have plenty of time to get ready for your big event!"]
    String.intercalate " " (parts1 ++ parts2 ++ parts3)

/-- Buffer of 30 minutes before and after the service. -/
def buffer_time : Int := 30

/-- Event-fetch range of `analyze_calendar_for_smart_suggestions`:
`[targetDate 00:00, targetDate + 1 day]` when a target date is given,
otherwise `[today 00:00, today + 7 days]`. -/
def fetchRange (target_date : Option Int) (now : Int) : Int × Int :=
  match target_date with
  | some td => (1440 * td, 1440 * td + 1440)
  | none => (1440 * dayOf now, 1440 * dayOf now + 7 * 1440)

/-- Embeds the success path of `analyze_calendar_for_smart_suggestions`
(credentials present, provider call succeeded): the computation from the
fetched, parsed events to the returned analysis. -/
def analyzeCalendar (events : List CalendarEvent) (service_type : String)
    (target_date : Option Int) (now : Int) : AnalysisResult :=
  let service_duration := serviceDurationFor service_type
  let total_time_needed := service_duration + buffer_time * 2
  let processed := processEvents events now
  let important := importantEventsOf processed
  let events_on_date := if target_date.isSome then processed else []
  let slots := findAvailableSlots processed target_date total_time_needed buffer_time now
  let dbs := dayBeforeSuggestions processed important service_type
    total_time_needed buffer_time now
  let base : AnalysisResult :=
    { has_calendar := true, suggested_slots := slots, important_events := important,
      day_before_suggestions := dbs, events_on_date := events_on_date,
      smart_suggestion := "" }
  { base with
    smart_suggestion := buildSmartSuggestion base service_type service_duration target_date }

/-- Modelled from the spec: the whole-day slot search over a 7-day horizon
that section 6 promises when `targetDate` is omitted (the repository has no
such code path; `_find_available_slots` is reused once per day of the
horizon, per the spec wording "7-day horizon, whole-day slot search only"). -/
def specSevenDayWholeDaySearch (events : List CalendarEvent)
    (total_time_needed buffer : Int) (now : Int) : List Slot :=
  (List.range 7).flatMap (fun i =>
    findAvailableSlots events (some (dayOf now + i)) total_time_needed buffer now)

/-! Helper lemmas on the clock-field arithmetic. -/

theorem modDay_decomp (t : Int) :
    1440 * dayOf t + modDay t = t ∧ 0 ≤ modDay t ∧ modDay t < 1440 :=
  ⟨Int.fdiv_add_fmod t 1440, Int.fmod_nonneg' t (by norm_num),
    Int.fmod_lt_of_pos t (by norm_num)⟩

theorem hourOf_decomp (t : Int) :
    60 * hourOf t + Int.fmod (modDay t) 60 = modDay t ∧
      0 ≤ Int.fmod (modDay t) 60 ∧ Int.fmod (modDay t) 60 < 60 :=
  ⟨Int.fdiv_add_fmod (modDay t) 60, Int.fmod_nonneg' (modDay t) (by norm_num),
    Int.fmod_lt_of_pos (modDay t) (by norm_num)⟩

/-- Claim C5, corrected.  The clamp of the search-window start fires only when
`now.hour >= 9`: in that case the start is `now + 30`, which then coincides
with `max(businessStart, now + 30)`; but when now is on the target date
before 09:00 (e.g. 08:30-09:00) the window start stays 09:00. -/
theorem C5_slotWindowStart_amended (td now : Int) (h1 : dayOf now = td) :
    (business_start ≤ hourOf now →
      slotWindowStart td now = max (1440 * td + 60 * business_start) (now + 30)) ∧
    (hourOf now < business_start →
      slotWindowStart td now = 1440 * td + 60 * business_start) := by
  have hd := modDay_decomp now
  have hh := hourOf_decomp now
  constructor
  · intro h2
    rw [slotWindowStart, if_pos ⟨h1, h2⟩]
    rw [business_start] at h2 ⊢
    omega
  · intro h2
    rw [slotWindowStart, if_neg]
    intro hc
    exact absurd hc.2 (not_le.mpr h2)

/-- Witness for C5: at 09:05 on the target day the window start is
`now + 30 = 09:35`, equal to the max formula. -/
theorem C5_witness :
    slotWindowStart 0 545 = max (1440 * 0 + 60 * business_start) (545 + 30) :=
  (C5_slotWindowStart_amended 0 545 (by decide)).1 (by decide)

/-- Counterexample for C5 as stated: at 08:45 on the target day (today) the
code leaves the window start at 09:00, not `max(09:00, now + 30) = 09:15`. -/
theorem C5_counterexample :
    slotWindowStart 0 525 = 540 ∧
      ¬ slotWindowStart 0 525 = max (1440 * 0 + 60 * business_start) (525 + 30) := by
  decide

/-- Claim C4: the code comment says "Round up to nearest 30 minutes", but for
a first gap starting at 15:10 (no priority hour inside any gap) the selector
returns "3:00 PM" - the start rounded DOWN to the hour, ten minutes before
the gap even begins - instead of the claimed "3:30 PM". -/
theorem C4_round_down_bug :
    bestSlotGaps 0 [⟨"Errand", 540, 880⟩] 120 30 (-5000) = [⟨910, 1140, 230⟩] ∧
    findBestSlotForDay 0 [⟨"Errand", 540, 880⟩] 120 30 (-5000) = "3:00 PM" ∧
    lstrip0 (fmtPadded 930) = "3:30 PM" := by
  decide

/-- Claim C3, corrected.  When `targetDate` is omitted the Slot Finder
returns the empty list unconditionally (the 7-day horizon affects only the
event fetch), so `suggestedSlots` is always empty in that mode. -/
theorem C3_no_target_empty (events : List CalendarEvent) (service_type : String)
    (total_time_needed buffer now : Int) :
    findAvailableSlots events none total_time_needed buffer now = [] ∧
    (analyzeCalendar events service_type none now).suggested_slots = [] := by
  constructor
  · rfl
  · rfl

/-- Counterexample for C3 as stated: on a completely free calendar the
spec-modelled 7-day whole-day search yields slots, but the engine returns an
empty `suggestedSlots` list. -/
theorem C3_counterexample :
    specSevenDayWholeDaySearch [] 120 30 600 ≠ [] ∧
    (analyzeCalendar [] "haircut" none 600).suggested_slots = [] := by
  decide

/-- Claim C6, confirmed.  The day-before loop emits exactly one suggestion
for each important event starting at least 24 hours (1440 minutes) after
now, in order, and none for important events starting sooner. -/
theorem C6_twenty_four_hour_rule (processed : List CalendarEvent)
    (important : List ImportantEvent) (service_type : String)
    (total_time_needed buffer now : Int) :
    dayBeforeSuggestions processed important service_type total_time_needed buffer now =
      (important.filter (fun ie => 1440 ≤ ie.event.start - now)).map
        (dayBeforeFor processed service_type total_time_needed buffer now) := by
  simp only [dayBeforeSuggestions]
  induction important with
  | nil => rfl
  | cons ie rest ih =>
    by_cases h : ie.event.start - now < 1440
    · have hb : ¬ (1440 ≤ ie.event.start - now) := by omega
      simp [List.filterMap_cons, List.filter_cons, h, hb, ih]
    · have hb : 1440 ≤ ie.event.start - now := by omega
      simp [List.filterMap_cons, List.filter_cons, h, hb, ih]

/-- Claim C7, confirmed.  An event ending strictly before now is excluded
from the important events and from the target-date events, and removing all
such events from the input leaves the whole analysis unchanged (so they do
not influence the computed slots either). -/
theorem C7_past_event_exclusion (events : List CalendarEvent)
    (service_type : String) (target_date : Option Int) (now : Int)
    (e : CalendarEvent) (hp : e.endT < now) :
    (∀ ie ∈ (analyzeCalendar events service_type target_date now).important_events,
        ie.event ≠ e) ∧
    e ∉ (analyzeCalendar events service_type target_date now).events_on_date ∧
    analyzeCalendar events service_type target_date now =
      analyzeCalendar (events.filter (fun x => !decide (x.endT < now)))
        service_type target_date now := by
  have hproc : processEvents (events.filter (fun x => !decide (x.endT < now))) now
      = processEvents events now := by
    simp only [processEvents, List.filter_filter, Bool.and_self]
  have hmem : ∀ x ∈ processEvents events now, ¬ x.endT < now := by
    intro x hx
    have := (List.mem_filter.mp hx).2
    simpa using this
  refine ⟨?_, ?_, ?_⟩
  · intro ie hie hcontra
    simp only [analyzeCalendar, importantEventsOf] at hie
    obtain ⟨x, hx, hxe⟩ := List.mem_map.mp hie
    have hxp : x ∈ processEvents events now := (List.mem_filter.mp hx).1
    have : x.endT < now := by
      have hx' : ie.event = x := by rw [← hxe]
      rw [hcontra] at hx'
      rw [← hx']
      exact hp
    exact hmem x hxp this
  · intro hcontra
    simp only [analyzeCalendar] at hcontra
    by_cases ht : target_date.isSome
    · simp only [ht, if_true] at hcontra
      exact hmem e hcontra hp
    · simp only [ht, if_false] at hcontra
      exact (List.not_mem_nil e) hcontra
  · simp only [analyzeCalendar, hproc]

/-- Witness for C7: a meeting that ended at minute 10, with now at minute
100, appears nowhere and removing it changes nothing. -/
theorem C7_witness :
    (∀ ie ∈ (analyzeCalendar [⟨"Old meeting", 0, 10⟩] "haircut" none 100).important_events,
        ie.event ≠ (⟨"Old meeting", 0, 10⟩ : CalendarEvent)) ∧
    (⟨"Old meeting", 0, 10⟩ : CalendarEvent) ∉
      (analyzeCalendar [⟨"Old meeting", 0, 10⟩] "haircut" none 100).events_on_date ∧
    analyzeCalendar [⟨"Old meeting", 0, 10⟩] "haircut" none 100 =
      analyzeCalendar (([⟨"Old meeting", 0, 10⟩] : List CalendarEvent).filter
        (fun x => !decide (x.endT < 100))) "haircut" none 100 :=
  C7_past_event_exclusion [⟨"Old meeting", 0, 10⟩] "haircut" none 100
    ⟨"Old meeting", 0, 10⟩ (by decide)

/-- Claim C8, confirmed.  The capability-based detector returns the empty
list when there is no capability, no events, when the capability fails, or
when its (fence-stripped, trimmed) response does not parse; and its result
depends only on the first 10 events, which are all the prompt mentions. -/
theorem C8_detector_never_propagates
    (parseJsonList : String → Option (List ScoredEvent))
    (events : List EventInfo) (llm : Option (String → Except String String)) :
    detectImportantEventsWithLlm parseJsonList events none = [] ∧
    detectImportantEventsWithLlm parseJsonList [] llm = [] ∧
    (∀ f msg, llm = some f → f (promptFor events) = Except.error msg →
      detectImportantEventsWithLlm parseJsonList events llm = []) ∧
    (∀ f content, llm = some f → f (promptFor events) = Except.ok content →
      parseJsonList (stripFenced content.trim) = none →
      detectImportantEventsWithLlm parseJsonList events llm = []) ∧
    detectImportantEventsWithLlm parseJsonList events llm =
      detectImportantEventsWithLlm parseJsonList (events.take 10) llm := by
  have hprompt : promptFor (events.take 10) = promptFor events := by
    simp [promptFor, eventListText, List.take_take]
  refine ⟨?_, ?_, ?_, ?_, ?_⟩
  · simp [detectImportantEventsWithLlm]
  · simp [detectImportantEventsWithLlm]
  · rintro f msg rfl hresp
    cases hE : events.isEmpty
    · simp [detectImportantEventsWithLlm, hE, hresp]
    · simp [detectImportantEventsWithLlm, hE]
  · rintro f content rfl hresp hparse
    cases hE : events.isEmpty
    · simp [detectImportantEventsWithLlm, hE, hresp, hparse]
    · simp [detectImportantEventsWithLlm, hE]
  · have hE : (events.take 10).isEmpty = events.isEmpty := by
      cases events <;> rfl
    simp only [detectImportantEventsWithLlm, hE, hprompt]

/-- Witness for C8: a failing parse on a single wedding event with a
capability that answers non-JSON text yields the empty list. -/
theorem C8_witness :
    detectImportantEventsWithLlm (fun _ => none) [⟨"Wedding", none, none⟩]
      (some (fun _ => Except.ok "this is not json")) = [] :=
  (C8_detector_never_propagates (fun _ => none) [⟨"Wedding", none, none⟩]
    (some (fun _ => Except.ok "this is not json"))).2.2.2.1
    _ "this is not json" rfl rfl rfl

/-- Claim C9, corrected.  The Best-Slot Selector does return the explicit
sentinel "No available time" when no qualifying gap exists (no exception is
modelled: the function is total); but the Suggestion Composer returns the
EMPTY string, not a graceful message, when `hasCalendar` is true and there
are no slots, no target-date events and no day-before suggestions. -/
theorem C9_sentinel_and_empty_composer (target_day : Int)
    (events_on_day : List CalendarEvent) (total_time_needed buffer now : Int)
    (service_type : String) (service_duration : Int) (target_date : Option Int) :
    (events_on_day ≠ [] →
      bestSlotGaps target_day events_on_day total_time_needed buffer now = [] →
      findBestSlotForDay target_day events_on_day total_time_needed buffer now
        = "No available time") ∧
    buildSmartSuggestion ⟨true, [], [], [], [], ""⟩ service_type service_duration
      target_date = "" := by
  constructor
  · intro hne hgaps
    cases events_on_day with
    | nil => exact absurd rfl hne
    | cons e rest =>
      simp only [findBestSlotForDay, List.isEmpty_cons, hgaps]
      rfl
  · cases target_date <;> rfl

/-- Witness for C9: a 9am-8pm event leaves no qualifying gap and the
selector answers with the sentinel string. -/
theorem C9_witness :
    findBestSlotForDay 0 [⟨"Conference", 540, 1200⟩] 120 30 (-5000)
      = "No available time" :=
  (C9_sentinel_and_empty_composer 0 [⟨"Conference", 540, 1200⟩] 120 30 (-5000)
    "haircut" 60 none).1 (by decide) (by decide)

/-- Counterexample for C9 as stated: a full analysis with a connected
calendar, no target date and no events has `hasCalendar = true`, no slots,
no target-date events, no day-before suggestions - and an EMPTY composed
suggestion string. -/
theorem C9_counterexample :
    (analyzeCalendar [] "haircut" none 600).has_calendar = true ∧
    (analyzeCalendar [] "haircut" none 600).suggested_slots = [] ∧
    (analyzeCalendar [] "haircut" none 600).events_on_date = [] ∧
    (analyzeCalendar [] "haircut" none 600).day_before_suggestions = [] ∧
    (analyzeCalendar [] "haircut" none 600).smart_suggestion = "" := by
  decide

/-- Claim C10, confirmed.  With a target date the event fetch window is
exactly `[targetDate 00:00, targetDate + 1 day]`, and whenever no fetched
event starts on the day before an important event, the day-before
suggestion falls back to the fixed default "11:00 AM". -/
theorem C10_day_before_default (td now : Int) (processed : List CalendarEvent)
    (important : List ImportantEvent) (service_type : String)
    (total_time_needed buffer : Int) :
    fetchRange (some td) now = (1440 * td, 1440 * td + 1440) ∧
    (∀ s ∈ dayBeforeSuggestions processed important service_type
        total_time_needed buffer now,
      processed.filter (fun e => dayOf e.start = s.suggested_day) = [] →
      s.suggested_time = "11:00 AM") := by
  refine ⟨rfl, ?_⟩
  intro s hs hfilter
  obtain ⟨ie, _, hie⟩ := List.mem_filterMap.mp hs
  by_cases h : ie.event.start - now < 1440
  · rw [if_pos h] at hie
    exact absurd hie (by simp)
  · rw [if_neg h] at hie
    have hday : s.suggested_day = dayOf (ie.event.start - 1440) := by
      rw [← Option.some_inj.mp hie]
      rfl
    rw [hday] at hfilter
    have hsug : s.suggested_time =
        findBestSlotForDay (ie.event.start - 1440)
          (List.insertionSort (fun a c => a.start ≤ c.start)
            (processed.filter (fun e => dayOf e.start = dayOf (ie.event.start - 1440))))
          total_time_needed buffer now := by
      rw [← Option.some_inj.mp hie]
      rfl
    rw [hsug, hfilter]
    rfl

/-- Witness for C10: a wedding on day 2 at 10:00 with an otherwise empty
calendar gets a day-before suggestion for day 1 at the default 11:00 AM. -/
theorem C10_witness :
    fetchRange (some 2) 0 = (1440 * 2, 1440 * 2 + 1440) ∧
    (dayBeforeFor [⟨"Wedding", 3480, 3540⟩] "haircut" 120 30 0
        ⟨⟨"Wedding", 3480, 3540⟩, "why"⟩).suggested_time = "11:00 AM" :=
  ⟨(C10_day_before_default 2 0 [⟨"Wedding", 3480, 3540⟩]
      [⟨⟨"Wedding", 3480, 3540⟩, "why"⟩] "haircut" 120 30).1,
   (C10_day_before_default 2 0 [⟨"Wedding", 3480, 3540⟩]
      [⟨⟨"Wedding", 3480, 3540⟩, "why"⟩] "haircut" 120 30).2
     (dayBeforeFor [⟨"Wedding", 3480, 3540⟩] "haircut" 120 30 0
        ⟨⟨"Wedding", 3480, 3540⟩, "why"⟩)
     (by decide) (by decide)⟩

/-- Helper: every between-events slot is emitted with length at least the
required minutes. -/
theorem betweenSlots_min_duration (td total_time_needed buffer_time : Int) :
    ∀ (l : List CalendarEvent) (s : Slot),
      s ∈ betweenSlots td total_time_needed buffer_time l →
      total_time_needed ≤ s.end_time - s.start_time
  | a :: c :: rest, s, hs => by
    simp only [betweenSlots] at hs
    rcases List.mem_append.mp hs with h1 | h2
    · by_cases hc : c.start - buffer_time - (a.endT + buffer_time) ≥ total_time_needed
      · rw [if_pos hc] at h1
        simp only [List.mem_singleton] at h1
        subst h1
        simpa using hc
      · rw [if_neg hc] at h1
        exact absurd h1 (List.not_mem_nil s)
    · exact betweenSlots_min_duration td total_time_needed buffer_time (c :: rest) s h2
  | [], s, hs => by simp [betweenSlots] at hs
  | [a], s, hs => by simp [betweenSlots] at hs

/-- Claim C1, corrected.  Every emitted slot other than the `free_day` slot
has duration at least `total_time_needed = serviceDuration + 2 x buffer`;
the `free_day` slot is emitted without any duration check, so when the
target date is today its clamped window can be shorter than required (even
negative). -/
theorem C1_min_duration_amended (events : List CalendarEvent)
    (td total_time_needed buffer_time now : Int) :
    ∀ s ∈ findAvailableSlots events (some td) total_time_needed buffer_time now,
      s.type ≠ "free_day" →
      total_time_needed ≤ s.end_time - s.start_time := by
  intro s hs hty
  simp only [findAvailableSlots] at hs
  generalize List.insertionSort (fun a c => a.start ≤ c.start)
    (events.filter (fun e => dayOf e.start = td)) = L at hs
  cases L with
  | nil =>
    simp only [slotsForDay, List.mem_singleton] at hs
    subst hs
    exact absurd rfl hty
  | cons e0 rest =>
    simp only [slotsForDay] at hs
    rcases List.mem_append.mp hs with h12 | h3
    · rcases List.mem_append.mp h12 with h1 | h2
      · by_cases hc : e0.start - buffer_time - slotWindowStart td now ≥ total_time_needed
        · rw [if_pos hc] at h1
          simp only [List.mem_singleton] at h1
          subst h1
          simpa using hc
        · rw [if_neg hc] at h1
          exact absurd h1 (List.not_mem_nil s)
      · exact betweenSlots_min_duration td total_time_needed buffer_time (e0 :: rest) s h2
    · by_cases hc : 1440 * td + 60 * business_end -
          (((e0 :: rest).getLastD e0).endT + buffer_time) ≥ total_time_needed
      · rw [if_pos hc] at h3
        simp only [List.mem_singleton] at h3
        subst h3
        simpa using hc
      · rw [if_neg hc] at h3
        exact absurd h3 (List.not_mem_nil s)

/-- Witness for C1: a 10:00-11:00 event leaves an after-last slot from 11:30
to 19:00, and its 450-minute duration is at least the required 120. -/
theorem C1_witness :
    (⟨690, 1140, 0, "after_last_event", "After your A"⟩ : Slot) ∈
      findAvailableSlots [⟨"A", 600, 660⟩] (some 0) 120 30 (-5000) ∧
    (120 : Int) ≤ 1140 - 690 :=
  ⟨by decide,
   C1_min_duration_amended [⟨"A", 600, 660⟩] 0 120 30 (-5000)
     ⟨690, 1140, 0, "after_last_event", "After your A"⟩ (by decide) (by decide)⟩

/-- Counterexample for C1 as stated: with the target date being today and
now at 18:40, the free-day slot runs from 19:10 to 19:00 - duration -10,
far below the required 120 minutes. -/
theorem C1_counterexample :
    findAvailableSlots [] (some 0) 120 30 1120 =
      [⟨1150, 1140, 0, "free_day", "Your calendar is free this day!"⟩] ∧
    (1140 : Int) - 1150 < 120 := by
  decide

/-- Helper: every between-events slot of a list headed by `a` starts no
earlier than the end of the buffered busy period of `a`, provided the list
is pairwise disjoint and each event is well formed (`start <= end`). -/
theorem betweenSlots_start_lb (td total_time_needed buffer_time : Int) :
    ∀ (a : CalendarEvent) (l : List CalendarEvent),
      (a :: l).Pairwise (fun x y => x.endT ≤ y.start) →
      (∀ e ∈ a :: l, e.start ≤ e.endT) →
      ∀ s ∈ betweenSlots td total_time_needed buffer_time (a :: l),
        a.endT + buffer_time ≤ s.start_time
  | a, [], _, _, s, hs => by simp [betweenSlots] at hs
  | a, c :: rest, hdisj, hwf, s, hs => by
    simp only [betweenSlots] at hs
    rcases List.mem_append.mp hs with h1 | h2
    · by_cases hc : c.start - buffer_time - (a.endT + buffer_time) ≥ total_time_needed
      · rw [if_pos hc] at h1
        simp only [List.mem_singleton] at h1
        subst h1
        simp
      · rw [if_neg hc] at h1
        exact absurd h1 (List.not_mem_nil s)
    · have hac : a.endT ≤ c.start :=
        (List.pairwise_cons.mp hdisj).1 c (List.mem_cons_self c rest)
      have hcwf : c.start ≤ c.endT := hwf c (by simp)
      have hrec := betweenSlots_start_lb td total_time_needed buffer_time c rest
        (List.pairwise_cons.mp hdisj).2 (fun e he => hwf e (List.mem_cons_of_mem a he))
        s h2
      omega

/-- Helper: no between-events slot of a sorted pairwise-disjoint list of
well-formed events overlaps the buffered busy period of any of its events. -/
theorem betweenSlots_no_overlap (td total_time_needed buffer_time : Int) :
    ∀ (l : List CalendarEvent),
      l.Pairwise (fun x y => x.endT ≤ y.start) →
      l.Sorted (fun x y => x.start ≤ y.start) →
      (∀ e ∈ l, e.start ≤ e.endT) →
      ∀ s ∈ betweenSlots td total_time_needed buffer_time l, ∀ e ∈ l,
        e.endT + buffer_time ≤ s.start_time ∨ s.end_time ≤ e.start - buffer_time
  | [], _, _, _, s, hs => by simp [betweenSlots] at hs
  | [a], _, _, _, s, hs => by simp [betweenSlots] at hs
  | a :: c :: rest, hdisj, hsort, hwf, s, hs => by
    intro e he
    simp only [betweenSlots] at hs
    rcases List.mem_append.mp hs with h1 | h2
    · by_cases hc : c.start - buffer_time - (a.endT + buffer_time) ≥ total_time_needed
      · rw [if_pos hc] at h1
        simp only [List.mem_singleton] at h1
        subst h1
        rcases he with _ | ⟨_, he'⟩
        · left; simp
        · rcases he' with _ | ⟨_, he''⟩
          · right; simp
          · right
            have : c.start ≤ e.start :=
              List.rel_of_sorted_cons (List.sorted_cons.mp hsort).2 e he''
            simp only [Slot.end_time]
            omega
      · rw [if_neg hc] at h1
        exact absurd h1 (List.not_mem_nil s)
    · rcases he with _ | ⟨_, he'⟩
      · left
        have hlb := betweenSlots_start_lb td total_time_needed buffer_time c rest
          (List.pairwise_cons.mp hdisj).2
          (fun x hx => hwf x (List.mem_cons_of_mem a hx)) s h2
        have hac : a.endT ≤ c.start :=
          (List.pairwise_cons.mp hdisj).1 c (List.mem_cons_self c rest)
        have hcwf : c.start ≤ c.endT := hwf c (by simp)
        omega
      · exact betweenSlots_no_overlap td total_time_needed buffer_time (c :: rest)
          (List.pairwise_cons.mp hdisj).2 (List.sorted_cons.mp hsort).2
          (fun x hx => hwf x (List.mem_cons_of_mem a hx)) s h2 e he'

/-- Helper: in a pairwise-disjoint list of well-formed events, every event
ends no later than the last one. -/
theorem endT_le_getLastD :
    ∀ (a : CalendarEvent) (l : List CalendarEvent),
      (a :: l).Pairwise (fun x y => x.endT ≤ y.start) →
      (∀ e ∈ a :: l, e.start ≤ e.endT) →
      ∀ e ∈ a :: l, e.endT ≤ (l.getLastD a).endT
  | a, [], _, _, e, he => by
    rcases he with _ | ⟨_, he'⟩
    · simp
    · exact absurd he' (List.not_mem_nil e)
  | a, c :: rest, hdisj, hwf, e, he => by
    rw [List.getLastD_cons]
    have hrec := endT_le_getLastD c rest (List.pairwise_cons.mp hdisj).2
      (fun x hx => hwf x (List.mem_cons_of_mem a hx))
    rcases he with _ | ⟨_, he'⟩
    · have hac : a.endT ≤ c.start :=
        (List.pairwise_cons.mp hdisj).1 c (List.mem_cons_self c rest)
      have hcwf : c.start ≤ c.endT := hwf c (by simp)
      have := hrec c (List.mem_cons_self c rest)
      omega
    · exact hrec e he'

/-- Sorting by start time is total for the comparison the finder uses. -/
instance : IsTotal CalendarEvent (fun a c => a.start ≤ c.start) :=
  ⟨fun a c => Int.le_total a.start c.start⟩

/-- Sorting by start time is transitive for the comparison the finder uses. -/
instance : IsTrans CalendarEvent (fun a c => a.start ≤ c.start) :=
  ⟨fun _ _ _ h1 h2 => le_trans h1 h2⟩

/-- Claim C2, corrected.  Events filtered to the target date never see their
buffered busy period overlapped by an emitted slot, provided the target-day
events are well formed (`start <= end`) and, in the order the finder sorts
them, pairwise disjoint.  The input order is unconstrained: the disjointness
hypothesis is stated on the sorted filtered list itself.  (Events whose
start lies on another calendar day are dropped by the filter and their busy
spans offer no such protection - see the counterexample.) -/
theorem C2_no_overlap_amended (events : List CalendarEvent)
    (td total_time_needed buffer_time now : Int)
    (hdisj : (List.insertionSort (fun a c => a.start ≤ c.start)
        (events.filter (fun e => dayOf e.start = td))).Pairwise
      (fun a c => a.endT ≤ c.start))
    (hwf : ∀ e ∈ events.filter (fun e => dayOf e.start = td), e.start ≤ e.endT) :
    ∀ s ∈ findAvailableSlots events (some td) total_time_needed buffer_time now,
      ∀ e ∈ events, dayOf e.start = td →
        e.endT + buffer_time ≤ s.start_time ∨
          s.end_time ≤ e.start - buffer_time := by
  intro s hs e he hed
  have hmem : e ∈ List.insertionSort (fun a c => a.start ≤ c.start)
      (events.filter (fun e => dayOf e.start = td)) := by
    rw [List.mem_insertionSort]
    exact List.mem_filter.mpr ⟨he, by simpa using hed⟩
  have hsort : (List.insertionSort (fun a c => a.start ≤ c.start)
      (events.filter (fun e => dayOf e.start = td))).Sorted
      (fun a c => a.start ≤ c.start) :=
    List.sorted_insertionSort _ _
  have hwfL : ∀ x ∈ List.insertionSort (fun a c => a.start ≤ c.start)
      (events.filter (fun e => dayOf e.start = td)), x.start ≤ x.endT :=
    fun x hx => hwf x ((List.mem_insertionSort _).mp hx)
  simp only [findAvailableSlots] at hs
  generalize hgen : List.insertionSort (fun a c => a.start ≤ c.start)
    (events.filter (fun e => dayOf e.start = td)) = L
    at hs hmem hsort hdisj hwfL
  cases L with
  | nil => exact absurd hmem (List.not_mem_nil e)
  | cons e0 rest =>
    simp only [slotsForDay] at hs
    rcases List.mem_append.mp hs with h12 | h3
    · rcases List.mem_append.mp h12 with h1 | h2
      · by_cases hc : e0.start - buffer_time - slotWindowStart td now ≥ total_time_needed
        · rw [if_pos hc] at h1
          simp only [List.mem_singleton] at h1
          subst h1
          right
          have he0 : e0.start ≤ e.start := by
            rcases hmem with _ | ⟨_, hm'⟩
            · exact le_refl _
            · exact List.rel_of_sorted_cons hsort e hm'
          simp only [Slot.end_time]
          omega
        · rw [if_neg hc] at h1
          exact absurd h1 (List.not_mem_nil s)
      · exact betweenSlots_no_overlap td total_time_needed buffer_time (e0 :: rest)
          hdisj hsort hwfL s h2 e hmem
    · by_cases hc : 1440 * td + 60 * business_end -
          (((e0 :: rest).getLastD e0).endT + buffer_time) ≥ total_time_needed
      · rw [if_pos hc] at h3
        simp only [List.mem_singleton] at h3
        subst h3
        left
        have := endT_le_getLastD e0 rest hdisj hwfL e hmem
        rw [List.getLastD_cons]
        simp only [Slot.start_time]
        omega
      · rw [if_neg hc] at h3
        exact absurd h3 (List.not_mem_nil s)

/-- Witness for C2: two disjoint events given in REVERSE input order
(14:00-15:00 before 10:00-11:00 in the list); the finder sorts them, emits
the between slot 11:30-13:30, and the slot touches neither buffered busy
period. -/
theorem C2_witness :
    (⟨690, 810, 0, "between_events", "Between A and B"⟩ : Slot) ∈
      findAvailableSlots [⟨"B", 840, 900⟩, ⟨"A", 600, 660⟩] (some 0) 120 30 (-5000) ∧
    ((660 : Int) + 30 ≤ 690 ∨ (810 : Int) ≤ 600 - 30) :=
  ⟨by decide,
   C2_no_overlap_amended [⟨"B", 840, 900⟩, ⟨"A", 600, 660⟩] 0 120 30 (-5000)
     (by decide) (by decide)
     ⟨690, 810, 0, "between_events", "Between A and B"⟩ (by decide)
     ⟨"A", 600, 660⟩ (by decide) (by decide)⟩

/-- Counterexample for C2 as stated: an event from 22:00 the previous day to
12:00 on the target day starts on another calendar date, so the finder drops
it and emits a free-day slot 09:00-19:00 that lies inside the buffered busy
period (21:30 previous day to 12:30). -/
theorem C2_counterexample :
    findAvailableSlots [⟨"X", -120, 720⟩] (some 0) 120 30 (-10000) =
      [⟨540, 1140, 0, "free_day", "Your calendar is free this day!"⟩] ∧
    (540 : Int) < 720 + 30 ∧ (-120 : Int) - 30 < 1140 := by
  decide

end GlowGo
